import Mathlib

/-
Verification development for the SimpleAnalyticsTool repository.

The repository extracts structured personal/financial fields from free-form
text using Python regular expressions.  This file gives a shallow embedding
of the relevant modules:

  * `Fe`  embeds src/extractor/financial_extractor.py
  * `Az`  embeds src/app/analyzer.py
  * `Le`  embeds src/app/location_extractor.py

The regular-expression patterns of the source are embedded through a small
backtracking matcher (`RE`, `reMatches`, `searchFrom`) that enumerates the
ways a pattern can consume a prefix of the input in exactly the priority
order used by Python's `re` backtracking (greedy repetitions try longer
consumptions first, lazy repetitions shorter first, alternatives in declared
order, `re.search` tries start positions left to right and returns the first
full match).  Word boundaries are supported by threading the character that
precedes the current position.

Conventions of the embedding:
  * Text is a `List Char`; ASCII inputs are assumed (the source's data is
    ASCII), so Python's `str.lower`, `str.upper`, `\d`, `\s`, `\w` are
    modelled by their ASCII meanings.
  * Python numeric results on captures of `[\d,]+` are exact small integers,
    so `float(...)` conversions are modelled as `Nat`; a conversion failure
    (ValueError on an empty digit string) is modelled as `Option`/`Except`.
  * `datetime.now().year` is modelled as an explicit parameter.
  * Python dicts preserve insertion order; the geographic taxonomy mapping is
    modelled as an association list in declared order.
-/

/-- Python character class `\s` restricted to ASCII: space, tab, newline,
carriage return, vertical tab, form feed. -/
def pySpace (c : Char) : Bool :=
  c == ' ' || c == '\t' || c == '\n' || c == '\r' || c == '\x0b' || c == '\x0c'

/-- Python character class `\w` restricted to ASCII: letters, digits, underscore. -/
def pyWord (c : Char) : Bool :=
  c.isAlphanum || c == '_'

/-- Character class `[:\s]` used by several patterns of the source. -/
def colonSpace (c : Char) : Bool :=
  c == ':' || pySpace c

/-- Python `str.lower()` on ASCII text. -/
def lowerL (s : List Char) : List Char := s.map Char.toLower

/-- Python `str.upper()` on ASCII text. -/
def upperL (s : List Char) : List Char := s.map Char.toUpper

/-- Python `str.strip()` on ASCII text: drop whitespace at both ends. -/
def pyStrip (s : List Char) : List Char :=
  ((s.dropWhile pySpace).reverse.dropWhile pySpace).reverse

/-- Whether `needle` occurs as a prefix of `hay` (helper for substring tests). -/
def isPrefixL : List Char → List Char → Bool
  | [], _ => true
  | _ :: _, [] => false
  | a :: x, b :: y => a == b && isPrefixL x y

/-- Python's substring test `needle in hay`. -/
def containsL (needle : List Char) : List Char → Bool
  | [] => needle.isEmpty
  | b :: y => isPrefixL needle (b :: y) || containsL needle y

/-- Regular-expression abstract syntax covering the constructs used by the
source patterns: single-character classes, concatenation, alternation,
greedy and lazy counted repetition, and word boundary. -/
inductive RE where
  | eps : RE
  | cls (p : Char → Bool) : RE
  | seq (a b : RE) : RE
  | alt (a b : RE) : RE
  | rep (greedy : Bool) (a : RE) (lo : Nat) (hi : Option Nat) : RE
  | wb : RE

/-- The character preceding the rest of the input after consuming `x`
starting from a position preceded by `prev`. -/
def newPrev (prev : Option Char) (x : List Char) : Option Char :=
  match x.getLast? with
  | some c => some c
  | none => prev

/-- Word-boundary test between the previous character and the next one,
as Python's `\b` (start and end of the string count as non-word). -/
def atBoundary (prev : Option Char) (s : List Char) : Bool :=
  let w : Option Char → Bool := fun o => match o with
    | some c => pyWord c
    | none => false
  w prev != w s.head?

/-- All ways a repetition can consume a prefix of `s`, in backtracking
priority order, given the body's match function.  `fuel` bounds the number
of iterations; every repetition body in the embedded patterns consumes at
least one character, so the fuel chosen by `reMatches` is never exhausted
before the input is. -/
def repMatches (bodyM : Option Char → List Char → List (List Char × List Char))
    (g : Bool) : Nat → Nat → Option Nat → Option Char → List Char →
    List (List Char × List Char)
  | 0, lo, _, _, s => if lo = 0 then [([], s)] else []
  | fuel + 1, lo, hi, prev, s =>
    let stop := if lo = 0 then [([], s)] else []
    let more :=
      if hi = some 0 then []
      else
        (bodyM prev s).flatMap fun p =>
          (repMatches bodyM g fuel (lo - 1) (hi.map Nat.pred) (newPrev prev p.1) p.2).map
            fun q => (p.1 ++ q.1, q.2)
    if g then more ++ stop else stop ++ more

/-- All ways `re` can match a prefix of `s`, as pairs (consumed, rest), in
Python backtracking priority order.  `prev` is the character preceding the
current position (for word boundaries). -/
def reMatches : RE → Option Char → List Char → List (List Char × List Char)
  | .eps, _, s => [([], s)]
  | .cls p, _, s =>
    match s with
    | [] => []
    | c :: r => if p c then [([c], r)] else []
  | .seq a b, prev, s =>
    (reMatches a prev s).flatMap fun x =>
      (reMatches b (newPrev prev x.1) x.2).map fun y => (x.1 ++ y.1, y.2)
  | .alt a b, prev, s => reMatches a prev s ++ reMatches b prev s
  | .rep g a lo hi, prev, s => repMatches (reMatches a) g (s.length + 1) lo hi prev s
  | .wb, prev, s => if atBoundary prev s then [([], s)] else []

/-- A pattern with exactly one capturing group, written as the part before
the group, the group itself, and the part after the group.  Every pattern of
the source has at most one group of interest. -/
structure RE3 where
  pre : RE
  grp : RE
  post : RE

/-- The first (highest-priority) full match of `p` at the current position:
the captured group, the character preceding the rest, and the rest of the
input after the whole match. -/
def matchAt (p : RE3) (prev : Option Char) (s : List Char) :
    Option (List Char × Option Char × List Char) :=
  ((reMatches p.pre prev s).flatMap fun a =>
    (reMatches p.grp (newPrev prev a.1) a.2).flatMap fun g =>
      (reMatches p.post (newPrev (newPrev prev a.1) g.1) g.2).map fun z =>
        (g.1, newPrev (newPrev (newPrev prev a.1) g.1) z.1, z.2)).head?

/-- Python `re.search`: try each start position from left to right and
return the first position's highest-priority match. -/
def searchFrom (p : RE3) (prev : Option Char) (s : List Char) :
    Option (List Char × Option Char × List Char) :=
  match matchAt p prev s with
  | some r => some r
  | none =>
    match s with
    | [] => none
    | c :: rest => searchFrom p (some c) rest

/-- The captured group of the leftmost match of `p` in `s`, if any
(Python `re.search(...).group(1)`). -/
def searchCapture (p : RE3) (s : List Char) : Option (List Char) :=
  (searchFrom p none s).map fun r => r.1

/-- Python `re.findall` / `re.finditer`: all non-overlapping matches from
left to right, each continued after the end of the previous one.  All
patterns it is used with consume at least one character per match, so the
fuel is never exhausted early. -/
def findAllAux (p : RE3) : Nat → Option Char → List Char → List (List Char)
  | 0, _, _ => []
  | fuel + 1, prev, s =>
    match searchFrom p prev s with
    | none => []
    | some (g, prev2, rest) => g :: findAllAux p fuel prev2 rest

/-- All captures of the non-overlapping matches of `p` in `s`. -/
def findAll (p : RE3) (s : List Char) : List (List Char) :=
  findAllAux p (s.length + 1) none s

/-- Python `re.match` anchored also at the end (a regex of the form
`^...$` applied with `re.match`): does `re` match all of `l`. -/
def anchoredFull (re : RE) (l : List Char) : Bool :=
  (reMatches re none l).any fun r => r.2.isEmpty

/-- A case-sensitive literal string as a regex. -/
def litRE (w : String) : RE :=
  w.data.foldr (fun c r => .seq (.cls (fun d => d == c)) r) .eps

/-- A literal string under `re.IGNORECASE`: characters compare after ASCII
lowercasing. -/
def litCI (w : String) : RE :=
  w.data.foldr (fun c r => .seq (.cls (fun d => d.toLower == c.toLower)) r) .eps

/-- Alternation of a list of regexes in declared order (Python `a|b|c`). -/
def altList : List RE → RE
  | [] => .cls fun _ => false
  | [r] => r
  | r :: rest => .alt r (altList rest)

/-- Greedy `r*`. -/
def star (r : RE) : RE := .rep true r 0 none

/-- Greedy `r+`. -/
def plusRE (r : RE) : RE := .rep true r 1 none

/-- Greedy `r?`. -/
def opt (r : RE) : RE := .rep true r 0 (some 1)

/-- Numeric value of a list of decimal digit characters (Python `int`). -/
def digitsVal (g : List Char) : Nat :=
  g.foldl (fun a c => 10 * a + (c.toNat - '0'.toNat)) 0

/-- Python `float(capture.replace(",", ""))` on a capture of `[\d,]+`:
strip the commas and convert; the empty string raises ValueError, modelled
as `none`.  The values concerned are exact integers. -/
def parseNum (g : List Char) : Option Nat :=
  let d := g.filter fun c => !(c == ',')
  if d.isEmpty then none else some (digitsVal d)

/-- Possible Python runtime errors of the embedded code. -/
inductive PyErr where
  | valueError : PyErr
deriving DecidableEq

/-- The three-level location result of the location resolvers. -/
structure LocationMatch where
  region : Option String
  district : Option String
  ward : Option String
deriving DecidableEq

/-- A geographic taxonomy: region name, district names, ward names, in the
declared (insertion) order of the source's JSON object. -/
abbrev Taxonomy := List (String × List (String × List String))

namespace Fe

/-- The name shape `[A-Z][a-z]+(?:\s[A-Z][a-z]+){1,2}` shared by the three
patterns of `extract_full_name`. -/
def nameCore : RE :=
  .seq (.cls Char.isUpper)
    (.seq (plusRE (.cls Char.isLower))
      (.rep true
        (.seq (.cls pySpace) (.seq (.cls Char.isUpper) (plusRE (.cls Char.isLower))))
        1 (some 2)))

/-- Pattern `([A-Z][a-z]+(?:\s[A-Z][a-z]+){1,2}) is (?:a|an)`. -/
def namePat1 : RE3 :=
  ⟨.eps, nameCore, .seq (litRE " is ") (.alt (litRE "a") (litRE "an"))⟩

/-- Pattern `My name is ([A-Z][a-z]+(?:\s[A-Z][a-z]+){1,2})`. -/
def namePat2 : RE3 :=
  ⟨litRE "My name is ", nameCore, .eps⟩

/-- Pattern `Name[:\s]*([A-Z][a-z]+(?:\s[A-Z][a-z]+){1,2})`. -/
def namePat3 : RE3 :=
  ⟨.seq (litRE "Name") (star (.cls colonSpace)), nameCore, .eps⟩

/-- `extract_full_name`: the three patterns are tried in declared order;
the first match's group, stripped, is returned. -/
def extract_full_name (t : String) : Option String :=
  match searchCapture namePat1 t.data with
  | some g => some (String.mk (pyStrip g))
  | none =>
    match searchCapture namePat2 t.data with
    | some g => some (String.mk (pyStrip g))
    | none =>
      match searchCapture namePat3 t.data with
      | some g => some (String.mk (pyStrip g))
      | none => none

/-- Pattern `(\+255|0)(7|6|5|4|2)\d{7,8}`; the source uses the full match
text (`m.group()`), so the whole pattern is the group here. -/
def phonePat : RE3 :=
  ⟨.eps,
   .seq (.alt (litRE "+255") (litRE "0"))
     (.seq (.cls fun c => c == '7' || c == '6' || c == '5' || c == '4' || c == '2')
       (.rep true (.cls Char.isDigit) 7 (some 8))),
   .eps⟩

/-- First-occurrence deduplication, with the already-seen elements as an
accumulator.  The source builds `list(set(...))`, whose order Python leaves
unspecified; the element set is what matters. -/
def dedupAux (seen : List String) : List String → List String
  | [] => []
  | x :: rest =>
    if seen.contains x then dedupAux seen rest else x :: dedupAux (x :: seen) rest

/-- First-occurrence deduplication. -/
def dedupFirst (l : List String) : List String := dedupAux [] l

/-- `extract_phone_numbers`: all non-overlapping matches, deduplicated. -/
def extract_phone_numbers (t : String) : List String :=
  dedupFirst ((findAll phonePat t.data).map String.mk)

/-- Pattern `(?:NIDA\s*Number[:\s]*)?([A-Z]?\d{15,17})` with IGNORECASE. -/
def nidaPat : RE3 :=
  ⟨opt (.seq (litCI "NIDA")
      (.seq (star (.cls pySpace)) (.seq (litCI "Number") (star (.cls colonSpace))))),
   .seq (.rep true (.cls Char.isAlpha) 0 (some 1)) (.rep true (.cls Char.isDigit) 15 (some 17)),
   .eps⟩

/-- The candidate loop of `extract_nida_number`: remove spaces and hyphens,
keep the first candidate whose cleaned length is 16 or 17, uppercased. -/
def nidaLoop : List (List Char) → Option String
  | [] => none
  | m :: rest =>
    let cleaned := m.filter fun c => !(c == ' ') && !(c == '-')
    if cleaned.length = 16 || cleaned.length = 17 then some (String.mk (upperL cleaned))
    else nidaLoop rest

/-- `extract_nida_number`. -/
def extract_nida_number (t : String) : Option String :=
  nidaLoop (findAll nidaPat t.data)

/-- Direct-age pattern `Age[:\s]+(\d{1,2})` (case-sensitive). -/
def agePat : RE3 :=
  ⟨.seq (litRE "Age") (plusRE (.cls colonSpace)),
   .rep true (.cls Char.isDigit) 1 (some 2),
   .eps⟩

/-- Birth-year pattern `Born(?: in)?[:\s]*(\d{4})` with IGNORECASE. -/
def bornPat : RE3 :=
  ⟨.seq (litCI "Born") (.seq (opt (litCI " in")) (star (.cls colonSpace))),
   .rep true (.cls Char.isDigit) 4 (some 4),
   .eps⟩

/-- The direct path of `extract_age`: the first match of the direct-age
pattern, converted with `int`. -/
def extract_age_direct (t : String) : Option Int :=
  match searchCapture agePat t.data with
  | some g => some (digitsVal g : Nat)
  | none => none

/-- `extract_age`: the direct path takes precedence; otherwise a birth year
is searched and `currentYear - birthYear` is returned subject to the bound
`0 < age < 120`.  `datetime.now().year` is the parameter `currentYear`. -/
def extract_age (currentYear : Int) (t : String) : Option Int :=
  match extract_age_direct t with
  | some a => some a
  | none =>
    match searchCapture bornPat t.data with
    | some g =>
      let age : Int := currentYear - (digitsVal g : Nat)
      if 0 < age && age < 120 then some age else none
    | none => none

/-- Income pattern `income of\s*([\d,]+)` with IGNORECASE. -/
def incomePat1 : RE3 :=
  ⟨.seq (litCI "income of") (star (.cls pySpace)),
   plusRE (.cls fun c => c.isDigit || c == ','), .eps⟩

/-- Income pattern `earns\s*an\s*income\s*of\s*([\d,]+)` with IGNORECASE. -/
def incomePat2 : RE3 :=
  ⟨.seq (litCI "earns") (.seq (star (.cls pySpace))
     (.seq (litCI "an") (.seq (star (.cls pySpace))
       (.seq (litCI "income") (.seq (star (.cls pySpace))
         (.seq (litCI "of") (star (.cls pySpace)))))))),
   plusRE (.cls fun c => c.isDigit || c == ','), .eps⟩

/-- Income pattern `Income[:\s]*([\d,]+)` with IGNORECASE. -/
def incomePat3 : RE3 :=
  ⟨.seq (litCI "Income") (star (.cls colonSpace)),
   plusRE (.cls fun c => c.isDigit || c == ','), .eps⟩

/-- The shared loop shape of `extract_income` and `extract_loan_limit`:
for each pattern in order, search; on a match try the conversion and return
its value, on a conversion failure fall through to the next pattern
(the source's `continue`). -/
def firstParsed : List RE3 → List Char → Option Nat
  | [], _ => none
  | p :: rest, s =>
    match searchCapture p s with
    | some m =>
      match parseNum m with
      | some v => some v
      | none => firstParsed rest s
    | none => firstParsed rest s

/-- `extract_income`. -/
def extract_income (t : String) : Option Nat :=
  firstParsed [incomePat1, incomePat2, incomePat3] t.data

/-- Balance pattern `(?:Bank\s*Balance|Balance)[:\s]*([\d,]+)` with IGNORECASE. -/
def balancePat : RE3 :=
  ⟨.seq (.alt (.seq (litCI "Bank") (.seq (star (.cls pySpace)) (litCI "Balance")))
       (litCI "Balance"))
     (star (.cls colonSpace)),
   plusRE (.cls fun c => c.isDigit || c == ','), .eps⟩

/-- `extract_bank_balance`: unlike its siblings, the source has no
try/except around the `float` conversion, so a conversion failure
propagates as a ValueError. -/
def extract_bank_balance (t : String) : Except PyErr (Option Nat) :=
  match searchCapture balancePat t.data with
  | some m =>
    match parseNum m with
    | some v => .ok (some v)
    | none => .error .valueError
  | none => .ok none

/-- Loan pattern `loan limit of\s*([\d,]+)` with IGNORECASE. -/
def loanPat1 : RE3 :=
  ⟨.seq (litCI "loan limit of") (star (.cls pySpace)),
   plusRE (.cls fun c => c.isDigit || c == ','), .eps⟩

/-- Loan pattern `applied for (?:a )?loan.*?([\d,]+)` with IGNORECASE
(`.` does not match a newline; `.*?` is lazy). -/
def loanPat2 : RE3 :=
  ⟨.seq (litCI "applied for ")
     (.seq (opt (litCI "a "))
       (.seq (litCI "loan") (.rep false (.cls fun c => !(c == '\n')) 0 none))),
   plusRE (.cls fun c => c.isDigit || c == ','), .eps⟩

/-- Loan pattern `(?:Loan\s*limit|Borrowing\s*limit)[:\s]*([\d,]+)` with IGNORECASE. -/
def loanPat3 : RE3 :=
  ⟨.seq (.alt (.seq (litCI "Loan") (.seq (star (.cls pySpace)) (litCI "limit")))
       (.seq (litCI "Borrowing") (.seq (star (.cls pySpace)) (litCI "limit"))))
     (star (.cls colonSpace)),
   plusRE (.cls fun c => c.isDigit || c == ','), .eps⟩

/-- `extract_loan_limit`. -/
def extract_loan_limit (t : String) : Option Nat :=
  firstParsed [loanPat1, loanPat2, loanPat3] t.data

/-- Case-insensitive substring test of a taxonomy name against the
lowercased text, as the source's `name.lower() in text_lower`. -/
def nameInText (name : String) (tl : List Char) : Bool :=
  containsL (lowerL name.data) tl

/-- Ward loop of `extract_location`: the first ward whose name occurs in
the text wins; otherwise the ward stays absent. -/
def wardScan (region district : String) (ws : List String) (tl : List Char) : LocationMatch :=
  match ws with
  | [] => ⟨some region, some district, none⟩
  | w :: rest =>
    if nameInText w tl then ⟨some region, some district, some w⟩
    else wardScan region district rest tl

/-- District loop of `extract_location`, restricted to the selected region. -/
def districtScan (region : String) (ds : List (String × List String)) (tl : List Char) :
    LocationMatch :=
  match ds with
  | [] => ⟨some region, none, none⟩
  | (d, ws) :: rest =>
    if nameInText d tl then wardScan region d ws tl
    else districtScan region rest tl

/-- Region loop of `extract_location`: the first region of the taxonomy
whose name occurs in the text is selected and the walk never returns to the
remaining regions. -/
def regionScan (tax : Taxonomy) (tl : List Char) : LocationMatch :=
  match tax with
  | [] => ⟨none, none, none⟩
  | (r, ds) :: rest =>
    if nameInText r tl then districtScan r ds tl
    else regionScan rest tl

/-- `extract_location`.  The source reads the taxonomy from a module-level
global loaded from a JSON resource; it is passed here as a parameter in the
JSON object's declared order. -/
def extract_location (tax : Taxonomy) (t : String) : LocationMatch :=
  regionScan tax (lowerL t.data)

/-- The closed occupation vocabulary of `extract_job_and_work`, in declared
order. -/
def jobKeywords : List String :=
  ["software developer", "engineer", "teacher", "manager", "consultant",
   "accountant", "driver", "nurse", "farmer", "mechanic", "worker",
   "developer", "technician", "officer", "supervisor", "assistant",
   "clerk", "operator", "analyst", "security", "doctor"]

/-- Pattern `\b(kw1|kw2|...)\b` with IGNORECASE over the occupation
vocabulary. -/
def jobPat : RE3 :=
  ⟨.wb, altList (jobKeywords.map litCI), .wb⟩

/-- Python `str.title()` on ASCII text: a letter is uppercased when the
previous character is not a letter, lowercased otherwise. -/
def pyTitleAux : Bool → List Char → List Char
  | _, [] => []
  | prevAlpha, c :: rest =>
    (if c.isAlpha then (if prevAlpha then c.toLower else c.toUpper) else c) ::
      pyTitleAux c.isAlpha rest

/-- Python `str.title()`. -/
def pyTitle (s : List Char) : List Char := pyTitleAux false s

/-- Workplace pattern `works at ([A-Z][\w&\s\-]+)` with IGNORECASE, and its
three variants; under IGNORECASE the class `[A-Z]` matches any letter. -/
def workPat (intro : String) : RE3 :=
  ⟨litCI intro,
   .seq (.cls Char.isAlpha)
     (plusRE (.cls fun c => pyWord c || c == '&' || pySpace c || c == '-')),
   .eps⟩

/-- The workplace loop of `extract_job_and_work`. -/
def workScan : List String → List Char → Option String
  | [], _ => none
  | intro :: rest, s =>
    match searchCapture (workPat intro) s with
    | some g => some (String.mk (pyStrip g))
    | none => workScan rest s

/-- `extract_job_and_work`: the occupation keyword and the workplace phrase
are matched independently and returned together. -/
def extract_job_and_work (t : String) : Option String × Option String :=
  let job_title := (searchCapture jobPat t.data).map fun g => String.mk (pyTitle g)
  (job_title, workScan ["works at ", "employed by ", "working at ", "employee of "] t.data)

/-- The record assembled by `extract_all_financial_data`. -/
structure FinRecord where
  full_name : Option String
  phone_numbers : List String
  nida_number : Option String
  age : Option Int
  location : LocationMatch
  income_tzs : Option Nat
  bank_balance_tzs : Option Nat
  loan_limit_tzs : Option Nat
  job_title : Option String
  workplace : Option String
deriving DecidableEq

/-- `extract_all_financial_data`: every extractor is applied to the same
text.  `extract_bank_balance` can raise, in which case the whole record
construction raises. -/
def extract_all_financial_data (currentYear : Int) (tax : Taxonomy) (t : String) :
    Except PyErr FinRecord :=
  match extract_bank_balance t with
  | .error e => .error e
  | .ok bb =>
    let jw := extract_job_and_work t
    .ok
      { full_name := extract_full_name t
        phone_numbers := extract_phone_numbers t
        nida_number := extract_nida_number t
        age := extract_age currentYear t
        location := extract_location tax t
        income_tzs := extract_income t
        bank_balance_tzs := bb
        loan_limit_tzs := extract_loan_limit t
        job_title := jw.1
        workplace := jw.2 }

end Fe

namespace Le

/-- src/app/location_extractor.py builds the same walk as
`Fe.extract_location` but fills a result record level by level; the ward
loop returns the record with or without a ward. -/
def wardLoop (res : LocationMatch) (ws : List String) (tl : List Char) : LocationMatch :=
  match ws with
  | [] => res
  | w :: rest =>
    if Fe.nameInText w tl then { res with ward := some w } else wardLoop res rest tl

/-- The district loop of src/app/location_extractor.py. -/
def districtLoop (res : LocationMatch) (ds : List (String × List String)) (tl : List Char) :
    LocationMatch :=
  match ds with
  | [] => res
  | (d, ws) :: rest =>
    if Fe.nameInText d tl then wardLoop { res with district := some d } ws tl
    else districtLoop res rest tl

/-- The region loop of src/app/location_extractor.py. -/
def regionLoop (res : LocationMatch) (tax : Taxonomy) (tl : List Char) : LocationMatch :=
  match tax with
  | [] => res
  | (r, ds) :: rest =>
    if Fe.nameInText r tl then districtLoop { res with region := some r } ds tl
    else regionLoop res rest tl

/-- `extract_location` of src/app/location_extractor.py, starting from the
all-absent record. -/
def extract_location (tax : Taxonomy) (t : String) : LocationMatch :=
  regionLoop ⟨none, none, none⟩ tax (lowerL t.data)

end Le

namespace Az

/-- The anchored line shape `^[A-Z][a-z]+\s[A-Z][a-z]+(\s[A-Z][a-z]+)?$`
of `extract_full_name` in src/app/analyzer.py. -/
def nameLineRE : RE :=
  .seq (.cls Char.isUpper)
    (.seq (plusRE (.cls Char.isLower))
      (.seq (.cls pySpace)
        (.seq (.cls Char.isUpper)
          (.seq (plusRE (.cls Char.isLower))
            (opt (.seq (.cls pySpace) (.seq (.cls Char.isUpper) (plusRE (.cls Char.isLower)))))))))

/-- `extract_full_name` (analyzer version): the first of the first five
lines whose stripped text is exactly a two- or three-word capitalized name. -/
def extract_full_name (t : String) : Option String :=
  let lines := ((String.mk (pyStrip t.data)).splitOn "\n").map String.data
  (lines.take 5).findSome? fun l =>
    let ls := pyStrip l
    if anchoredFull nameLineRE ls then some (String.mk ls) else none

/-- Pattern `\b[1-9]\d{19}\b`; the source returns the full match. -/
def nidaPat : RE3 :=
  ⟨.wb,
   .seq (.cls fun c => '1' ≤ c && c ≤ '9') (.rep true (.cls Char.isDigit) 19 (some 19)),
   .wb⟩

/-- `extract_nida` (analyzer version). -/
def extract_nida (t : String) : Option String :=
  (searchCapture nidaPat t.data).map String.mk

/-- Pattern `\b(?:\+255|0)[67][0-9]{8}\b`; the source returns the full match. -/
def phonePat : RE3 :=
  ⟨.wb,
   .seq (.alt (litRE "+255") (litRE "0"))
     (.seq (.cls fun c => c == '6' || c == '7') (.rep true (.cls Char.isDigit) 8 (some 8))),
   .wb⟩

/-- `extract_phone` (analyzer version). -/
def extract_phone (t : String) : Option String :=
  (searchCapture phonePat t.data).map String.mk

/-- Pattern `\b[\w\.-]+@[\w\.-]+\.\w{2,4}\b`; the source returns the full match. -/
def emailPat : RE3 :=
  ⟨.wb,
   .seq (plusRE (.cls fun c => pyWord c || c == '.' || c == '-'))
     (.seq (.cls fun c => c == '@')
       (.seq (plusRE (.cls fun c => pyWord c || c == '.' || c == '-'))
         (.seq (.cls fun c => c == '.') (.rep true (.cls pyWord) 2 (some 4))))),
   .wb⟩

/-- `extract_email`. -/
def extract_email (t : String) : Option String :=
  (searchCapture emailPat t.data).map String.mk

/-- Pattern `Age[:\s]*([1-9][0-9]?)\b` with IGNORECASE; the source returns
the captured digits as a string. -/
def agePat : RE3 :=
  ⟨.seq (litCI "Age") (star (.cls colonSpace)),
   .seq (.cls fun c => '1' ≤ c && c ≤ '9') (.rep true (.cls Char.isDigit) 0 (some 1)),
   .wb⟩

/-- `extract_age` (analyzer version): a string result. -/
def extract_age (t : String) : Option String :=
  (searchCapture agePat t.data).map String.mk

/-- The location keyword list of the analyzer version, in declared order. -/
def locationKeywords : List String :=
  ["Dar es Salaam", "Arusha", "Mbeya", "Njombe", "Mwanza", "Dodoma", "Moshi"]

/-- `extract_location` (analyzer version): the first keyword occurring
case-insensitively in the text. -/
def extract_location (t : String) : Option String :=
  locationKeywords.findSome? fun place =>
    if containsL (lowerL place.data) (lowerL t.data) then some place else none

/-- Python `str.capitalize()` on ASCII text: first character uppercased,
the rest lowercased. -/
def pyCapitalize (s : List Char) : List Char :=
  match s with
  | [] => []
  | c :: rest => c.toUpper :: lowerL rest

/-- The employment options of the analyzer version, in declared order. -/
def employmentOptions : List String :=
  ["self-employed", "unemployed", "employed", "business owner", "farmer"]

/-- `extract_employment`: the first option contained in the lowercased
text, capitalized. -/
def extract_employment (t : String) : Option String :=
  employmentOptions.findSome? fun status =>
    if containsL status.data (lowerL t.data) then some (String.mk (pyCapitalize status.data))
    else none

/-- Pattern `(?i)(?:monthly income|income)[:\s]*TZS[\s,]*([\d,]+)`. -/
def incomePat : RE3 :=
  ⟨.seq (.alt (litCI "monthly income") (litCI "income"))
     (.seq (star (.cls colonSpace))
       (.seq (litCI "TZS") (star (.cls fun c => pySpace c || c == ',')))),
   plusRE (.cls fun c => c.isDigit || c == ','), .eps⟩

/-- `extract_income` (analyzer version): the capture with commas removed,
prefixed with the currency code. -/
def extract_income (t : String) : Option String :=
  (searchCapture incomePat t.data).map fun g =>
    String.mk ('T' :: 'Z' :: 'S' :: ' ' :: g.filter fun c => !(c == ','))

/-- Pattern `(?i)(?:bank balance|savings)[:\s]*TZS[\s,]*([\d,]+)`. -/
def balancePat : RE3 :=
  ⟨.seq (.alt (litCI "bank balance") (litCI "savings"))
     (.seq (star (.cls colonSpace))
       (.seq (litCI "TZS") (star (.cls fun c => pySpace c || c == ',')))),
   plusRE (.cls fun c => c.isDigit || c == ','), .eps⟩

/-- `extract_balance`. -/
def extract_balance (t : String) : Option String :=
  (searchCapture balancePat t.data).map fun g =>
    String.mk ('T' :: 'Z' :: 'S' :: ' ' :: g.filter fun c => !(c == ','))

/-- Pattern `(?i)(?:requested loan|loan amount)[:\s]*TZS[\s,]*([\d,]+)`. -/
def requestedLoanPat : RE3 :=
  ⟨.seq (.alt (litCI "requested loan") (litCI "loan amount"))
     (.seq (star (.cls colonSpace))
       (.seq (litCI "TZS") (star (.cls fun c => pySpace c || c == ',')))),
   plusRE (.cls fun c => c.isDigit || c == ','), .eps⟩

/-- `extract_requested_loan`. -/
def extract_requested_loan (t : String) : Option String :=
  (searchCapture requestedLoanPat t.data).map fun g =>
    String.mk ('T' :: 'Z' :: 'S' :: ' ' :: g.filter fun c => !(c == ','))

/-- The loan purposes of the analyzer version, in declared order. -/
def loanPurposes : List String :=
  ["business", "school fees", "health", "agriculture", "home improvement", "wedding"]

/-- `extract_loan_purpose`. -/
def extract_loan_purpose (t : String) : Option String :=
  loanPurposes.findSome? fun purpose =>
    if containsL purpose.data (lowerL t.data) then some (String.mk (pyCapitalize purpose.data))
    else none

/-- `clean_tzs_to_number`: a falsy input (absent or empty) yields `None`;
otherwise all digit runs are concatenated and converted with `int`, which
raises ValueError when the string holds no digit at all. -/
def clean_tzs_to_number (tzs_string : Option String) : Except PyErr (Option Nat) :=
  match tzs_string with
  | none => .ok none
  | some s =>
    if s.data.isEmpty then .ok none
    else
      let ds := s.data.filter Char.isDigit
      if ds.isEmpty then .error .valueError else .ok (some (digitsVal ds))

/-- Thousands grouping of a reversed digit list (commas every three digits). -/
def groupRev : List Char → List Char
  | a :: b :: c :: d :: rest => a :: b :: c :: ',' :: groupRev (d :: rest)
  | l => l

/-- Python `f"TZS {x:,.0f}"` for the exact integer `x`. -/
def formatTZS (n : Nat) : String :=
  String.mk ('T' :: 'Z' :: 'S' :: ' ' :: (groupRev (Nat.repr n).data.reverse).reverse)

/-- The record assembled by `analyze_financial_data`; every field is a
string or absent. -/
structure AzRecord where
  full_name : Option String
  nida_number : Option String
  phone_number : Option String
  email : Option String
  age : Option String
  location : Option String
  employment_status : Option String
  monthly_income_tzs : Option String
  bank_balance_tzs : Option String
  loan_purpose : Option String
  requested_loan_amount : Option String
  estimated_max_loan_limit : Option String
deriving DecidableEq

/-- The derived-ceiling computation of `analyze_financial_data`: the cleaned
income times five, formatted, guarded by Python truthiness (`if income:`),
with any exception of the cleaning step swallowed (`except: pass`). -/
def ceilingOf (income : Option String) : Option String :=
  match clean_tzs_to_number income with
  | .error _ => none
  | .ok none => none
  | .ok (some n) => if n == 0 then none else some (formatTZS (5 * n))

/-- `analyze_financial_data`: every extractor applied to the same text plus
the derived ceiling computed from the extracted income only. -/
def analyze_financial_data (t : String) : AzRecord :=
  { full_name := extract_full_name t
    nida_number := extract_nida t
    phone_number := extract_phone t
    email := extract_email t
    age := extract_age t
    location := extract_location t
    employment_status := extract_employment t
    monthly_income_tzs := extract_income t
    bank_balance_tzs := extract_balance t
    loan_purpose := extract_loan_purpose t
    requested_loan_amount := extract_requested_loan t
    estimated_max_loan_limit := ceilingOf (extract_income t) }

end Az

/-- Modelled from the spec: the geographic taxonomy resource
`app/data/tanzania_locations.json` is loaded by the source at import time but
the data file itself is not part of the source tree.  This instance follows
the spec's schema (top-level region names, district names, ward-name lists,
in declared order) and the spec's scenario, which requires the entry
Dar es Salaam → Kinondoni → Mikocheni. -/
def modelTaxonomy : Taxonomy :=
  [("Arusha", [("Arusha City", ["Kati", "Themi"])]),
   ("Dar es Salaam",
     [("Ilala", ["Upanga", "Kariakoo"]),
      ("Kinondoni", ["Mikocheni", "Mwananyamala"])]),
   ("Mwanza", [("Nyamagana", ["Pamba"])])]

/-- The input text of the spec's end-to-end scenario. -/
def scenarioText : String :=
  "Name: Juma Mkono\nAge: 29\nIncome: TZS 500,000\nDar es Salaam, Kinondoni, Mikocheni"

/-- An element referenced by `head?` belongs to the list. -/
theorem mem_of_headSome {α : Type} {l : List α} {a : α} (h : l.head? = some a) : a ∈ l := by
  cases l <;> simp_all

/-- A match of a single-character class consumes exactly one character of
the class. -/
theorem reMatches_cls_shape {p : Char → Bool} {prev : Option Char} {s x : List Char}
    {r : List Char} (h : (x, r) ∈ reMatches (.cls p) prev s) :
    ∃ c, x = [c] ∧ p c = true := by
  cases s with
  | nil => simp [reMatches] at h
  | cons c rest =>
    by_cases hc : p c = true
    · simp [reMatches, hc] at h
      exact ⟨c, h.1, hc⟩
    · simp [reMatches, hc] at h

/-- A bounded repetition of a character class consumes at most its upper
bound of characters, all of the class. -/
theorem repMatches_cls_bound {p : Char → Bool} {g : Bool} :
    ∀ {fuel lo hi : Nat} {prev : Option Char} {s x r : List Char},
    (x, r) ∈ repMatches (reMatches (.cls p)) g fuel lo (some hi) prev s →
    x.length ≤ hi ∧ ∀ c ∈ x, p c = true := by
  intro fuel
  induction fuel with
  | zero =>
    intro lo hi prev s x r h
    simp [repMatches] at h
    rcases h with ⟨-, h1, -⟩
    simp [h1]
  | succ f ih =>
    intro lo hi prev s x r h
    simp only [repMatches] at h
    have hsplit : (x, r) ∈ (if lo = 0 then [(([] : List Char), s)] else []) ∨
        (x, r) ∈ (if (some hi : Option Nat) = some 0 then []
          else
            (reMatches (.cls p) prev s).flatMap fun q =>
              (repMatches (reMatches (.cls p)) g f (lo - 1) ((some hi).map Nat.pred)
                  (newPrev prev q.1) q.2).map fun w => (q.1 ++ w.1, w.2)) := by
      cases g <;> simp_all
      tauto
    rcases hsplit with h | h
    · have hx : x = ([] : List Char) := by split at h <;> simp_all
      subst hx
      simp
    · by_cases hh : hi = 0
      · simp [hh] at h
      · simp only [Option.some.injEq] at h
        rw [if_neg hh] at h
        rw [List.mem_flatMap] at h
        obtain ⟨q, hq, hmem⟩ := h
        obtain ⟨q1, q2⟩ := q
        rw [List.mem_map] at hmem
        obtain ⟨w, hw, he⟩ := hmem
        obtain ⟨w1, w2⟩ := w
        obtain ⟨c, hc1, hc2⟩ := reMatches_cls_shape hq
        have hw2 : (w1, w2) ∈ repMatches (reMatches (.cls p)) g f (lo - 1) (some (hi - 1))
            (newPrev prev q1) q2 := by
          simpa [Option.map] using hw
        obtain ⟨hl, hall⟩ := ih hw2
        injection he with he1 he2
        subst he1
        subst hc1
        constructor
        · simp
          omega
        · intro d hd
          rcases List.mem_append.mp hd with hd | hd
          · simp at hd
            subst hd
            exact hc2
          · exact hall d hd

/-- The capture delivered by a successful `matchAt` is a prefix consumption
of the pattern's group. -/
theorem matchAt_grp_mem {p : RE3} {prev : Option Char} {s g : List Char}
    {pv : Option Char} {r : List Char} (h : matchAt p prev s = some (g, pv, r)) :
    ∃ prev2 s2 r2, (g, r2) ∈ reMatches p.grp prev2 s2 := by
  have hm := mem_of_headSome h
  rw [List.mem_flatMap] at hm
  obtain ⟨a, ha, hm⟩ := hm
  rw [List.mem_flatMap] at hm
  obtain ⟨gg, hg, hm⟩ := hm
  rw [List.mem_map] at hm
  obtain ⟨z, hz, he⟩ := hm
  obtain ⟨gg1, gg2⟩ := gg
  injection he with he1 he2
  subst he1
  exact ⟨newPrev prev a.1, a.2, gg2, hg⟩

/-- The capture delivered by a successful search is a prefix consumption of
the pattern's group. -/
theorem searchFrom_grp_mem {p : RE3} :
    ∀ {s : List Char} {prev : Option Char} {g : List Char} {pv : Option Char} {r : List Char},
    searchFrom p prev s = some (g, pv, r) →
    ∃ prev2 s2 r2, (g, r2) ∈ reMatches p.grp prev2 s2 := by
  intro s
  induction s with
  | nil =>
    intro prev g pv r h
    rw [searchFrom] at h
    rcases hma : matchAt p prev [] with _ | m
    · rw [hma] at h
      simp at h
    · rw [hma] at h
      simp at h
      obtain ⟨rfl, rfl, rfl⟩ := h
      exact matchAt_grp_mem hma
  | cons c rest ih =>
    intro prev g pv r h
    rw [searchFrom] at h
    rcases hma : matchAt p prev (c :: rest) with _ | m
    · rw [hma] at h
      simp at h
      exact ih h
    · rw [hma] at h
      simp at h
      obtain ⟨rfl, rfl, rfl⟩ := h
      exact matchAt_grp_mem hma

/-- The capture of `searchCapture` is a prefix consumption of the pattern's
group. -/
theorem searchCapture_grp_mem {p : RE3} {s g : List Char}
    (h : searchCapture p s = some g) :
    ∃ prev2 s2 r2, (g, r2) ∈ reMatches p.grp prev2 s2 := by
  rw [searchCapture] at h
  rcases hs : searchFrom p none s with _ | m
  · rw [hs] at h
    simp at h
  · rw [hs] at h
    obtain ⟨m1, m2, m3⟩ := m
    simp at h
    subst h
    exact searchFrom_grp_mem hs

/-- A decimal digit character has value at most nine. -/
theorem digitVal_le (c : Char) (h : c.isDigit = true) : c.toNat - '0'.toNat ≤ 9 := by
  simp [Char.isDigit, Char.le_def] at h
  obtain ⟨h1, h2⟩ := h
  rw [show ('0').toNat = 48 from rfl]
  simp [Char.toNat]
  exact h2

/-- The value of at most two decimal digits is at most ninety-nine. -/
theorem digitsVal_le_of_short {g : List Char} (hlen : g.length ≤ 2)
    (hd : ∀ c ∈ g, c.isDigit = true) : digitsVal g ≤ 99 := by
  match g, hlen with
  | [], _ => simp [digitsVal]
  | [a], _ =>
    have h1 := digitVal_le a (hd a (by simp))
    have e : digitsVal [a] = 10 * 0 + (a.toNat - '0'.toNat) := rfl
    rw [e]
    omega
  | [a, b], _ =>
    have ha := digitVal_le a (hd a (by simp))
    have hb := digitVal_le b (hd b (by simp))
    have e : digitsVal [a, b] = 10 * (10 * 0 + (a.toNat - '0'.toNat)) + (b.toNat - '0'.toNat) := rfl
    rw [e]
    omega

/-- The direct-age path captures at most two digits, so its result lies in
the interval from zero to ninety-nine. -/
theorem extract_age_direct_bound {t : String} {a : Int}
    (h : Fe.extract_age_direct t = some a) : 0 ≤ a ∧ a ≤ 99 := by
  rw [Fe.extract_age_direct] at h
  rcases hs : searchCapture Fe.agePat t.data with _ | g
  · rw [hs] at h
    simp at h
  · rw [hs] at h
    simp at h
    obtain ⟨prev2, s2, r2, hmem⟩ := searchCapture_grp_mem hs
    have hgrp : Fe.agePat.grp = .rep true (.cls Char.isDigit) 1 (some 2) := rfl
    rw [hgrp] at hmem
    rw [reMatches] at hmem
    obtain ⟨hlen, hd⟩ := repMatches_cls_bound hmem
    have := digitsVal_le_of_short hlen hd
    subst h
    constructor
    · positivity
    · exact_mod_cast this

/-- The pattern loop of `extract_income` and `extract_loan_limit` computes
the first pattern whose search capture also converts. -/
theorem firstParsed_eq_findSome (l : List RE3) (s : List Char) :
    Fe.firstParsed l s = l.findSome? fun p => (searchCapture p s).bind parseNum := by
  induction l with
  | nil => simp [Fe.firstParsed, List.findSome?]
  | cons p rest ih =>
    rw [Fe.firstParsed, List.findSome?]
    rcases hs : searchCapture p s with _ | m
    · simpa [Option.bind] using ih
    · rcases hp : parseNum m with _ | v
      · simpa [Option.bind, hp] using ih
      · simp [Option.bind, hp]

/-- A value returned by the NIDA candidate loop passed the cleaned-length
filter, so its character count is sixteen or seventeen. -/
theorem nidaLoop_length {l : List (List Char)} {v : String}
    (h : Fe.nidaLoop l = some v) : v.length = 16 ∨ v.length = 17 := by
  induction l with
  | nil => simp [Fe.nidaLoop] at h
  | cons m rest ih =>
    rw [Fe.nidaLoop] at h
    split at h
    · next hcond =>
      have hv : v = String.mk (upperL (m.filter fun c => !(c == ' ') && !(c == '-'))) := by
        injection h with h1
        exact h1.symm
      subst hv
      have hlen : (String.mk (upperL (m.filter fun c => !(c == ' ') && !(c == '-')))).length
          = (m.filter fun c => !(c == ' ') && !(c == '-')).length := by
        simp [String.length, upperL]
      rw [hlen]
      rcases Bool.or_eq_true _ _ |>.mp hcond with h16 | h17
      · exact Or.inl (by exact_mod_cast of_decide_eq_true h16)
      · exact Or.inr (by exact_mod_cast of_decide_eq_true h17)
    · exact ih h

/-- The ward loop always reports the selected region and district. -/
theorem wardScan_region (r d : String) (ws : List String) (tl : List Char) :
    (Fe.wardScan r d ws tl).region = some r ∧ (Fe.wardScan r d ws tl).district = some d := by
  induction ws with
  | nil => simp [Fe.wardScan]
  | cons w rest ih =>
    rw [Fe.wardScan]
    split
    · simp
    · exact ih

/-- The district loop always reports the selected region. -/
theorem districtScan_region (r : String) (ds : List (String × List String)) (tl : List Char) :
    (Fe.districtScan r ds tl).region = some r := by
  induction ds with
  | nil => simp [Fe.districtScan]
  | cons p rest ih =>
    obtain ⟨d, ws⟩ := p
    rw [Fe.districtScan]
    split
    · exact (wardScan_region r d ws tl).1
    · exact ih

/-- A district-loop result with a ward also has a district. -/
theorem districtScan_ward (r : String) (ds : List (String × List String)) (tl : List Char) :
    (Fe.districtScan r ds tl).ward.isSome = true →
    (Fe.districtScan r ds tl).district.isSome = true := by
  induction ds with
  | nil => simp [Fe.districtScan]
  | cons p rest ih =>
    obtain ⟨d, ws⟩ := p
    rw [Fe.districtScan]
    split
    · intro _
      rw [(wardScan_region r d ws tl).2]
      rfl
    · exact ih

/-- The ward loop selects the first matching ward of the list. -/
theorem wardScan_eq_find (r d : String) (ws : List String) (tl : List Char) :
    Fe.wardScan r d ws tl =
      match ws.find? (fun w => Fe.nameInText w tl) with
      | none => ⟨some r, some d, none⟩
      | some w => ⟨some r, some d, some w⟩ := by
  induction ws with
  | nil => simp [Fe.wardScan, List.find?]
  | cons w rest ih =>
    rw [Fe.wardScan, List.find?]
    rcases hw : Fe.nameInText w tl with _ | _
    · simp only [hw, Bool.false_eq_true, if_false]
      exact ih
    · simp [hw]

/-- The district loop selects the first matching district of the selected
region and scans only its wards. -/
theorem districtScan_eq_find (r : String) (ds : List (String × List String)) (tl : List Char) :
    Fe.districtScan r ds tl =
      match ds.find? (fun dp => Fe.nameInText dp.1 tl) with
      | none => ⟨some r, none, none⟩
      | some (d, ws) => Fe.wardScan r d ws tl := by
  induction ds with
  | nil => simp [Fe.districtScan, List.find?]
  | cons p rest ih =>
    obtain ⟨d, ws⟩ := p
    rw [Fe.districtScan, List.find?]
    rcases hd : Fe.nameInText d tl with _ | _
    · simp only [hd, Bool.false_eq_true, if_false]
      exact ih
    · simp [hd]

/-- The region loop selects the first matching region of the taxonomy and
walks only inside it. -/
theorem regionScan_eq_find (tax : Taxonomy) (tl : List Char) :
    Fe.regionScan tax tl =
      match tax.find? (fun rp => Fe.nameInText rp.1 tl) with
      | none => ⟨none, none, none⟩
      | some (r, ds) => Fe.districtScan r ds tl := by
  induction tax with
  | nil => simp [Fe.regionScan, List.find?]
  | cons p rest ih =>
    obtain ⟨r, ds⟩ := p
    rw [Fe.regionScan, List.find?]
    rcases hr : Fe.nameInText r tl with _ | _
    · simp only [hr, Bool.false_eq_true, if_false]
      exact ih
    · simp [hr]

/-- The ward loop of the location_extractor variant changes only the ward
field, and only to a present value. -/
theorem le_wardLoop_fields (res : LocationMatch) (ws : List String) (tl : List Char) :
    (Le.wardLoop res ws tl).region = res.region ∧
    (Le.wardLoop res ws tl).district = res.district ∧
    ((Le.wardLoop res ws tl).ward = res.ward ∨ (Le.wardLoop res ws tl).ward.isSome = true) := by
  induction ws with
  | nil => simp [Le.wardLoop]
  | cons w rest ih =>
    rw [Le.wardLoop]
    split
    · simp
    · exact ih

/-- The district loop of the location_extractor variant keeps the region,
and can touch the ward only after setting the district. -/
theorem le_districtLoop_fields (res : LocationMatch) (ds : List (String × List String))
    (tl : List Char) :
    (Le.districtLoop res ds tl).region = res.region ∧
    ((Le.districtLoop res ds tl).district = res.district ∨
      (Le.districtLoop res ds tl).district.isSome = true) ∧
    ((Le.districtLoop res ds tl).ward = res.ward ∨
      (Le.districtLoop res ds tl).district.isSome = true) := by
  induction ds with
  | nil => simp [Le.districtLoop]
  | cons p rest ih =>
    obtain ⟨d, ws⟩ := p
    rw [Le.districtLoop]
    split
    · obtain ⟨h1, h2, h3⟩ := le_wardLoop_fields { res with district := some d } ws tl
      refine ⟨h1, Or.inr ?_, Or.inr ?_⟩ <;> rw [h2] <;> rfl
    · exact ih

/-- The hierarchy invariant of the financial_extractor region loop. -/
theorem regionScan_inv (tax : Taxonomy) (tl : List Char) :
    ((Fe.regionScan tax tl).district.isSome = true →
      (Fe.regionScan tax tl).region.isSome = true) ∧
    ((Fe.regionScan tax tl).ward.isSome = true →
      (Fe.regionScan tax tl).district.isSome = true) := by
  induction tax with
  | nil => simp [Fe.regionScan]
  | cons p rest ih =>
    obtain ⟨r, ds⟩ := p
    rw [Fe.regionScan]
    split
    · constructor
      · intro _
        rw [districtScan_region]
        rfl
      · exact districtScan_ward r ds tl
    · exact ih

/-- The hierarchy invariant of the location_extractor region loop started
from the all-absent record. -/
theorem le_regionLoop_inv (tax : Taxonomy) (tl : List Char) :
    ((Le.regionLoop ⟨none, none, none⟩ tax tl).district.isSome = true →
      (Le.regionLoop ⟨none, none, none⟩ tax tl).region.isSome = true) ∧
    ((Le.regionLoop ⟨none, none, none⟩ tax tl).ward.isSome = true →
      (Le.regionLoop ⟨none, none, none⟩ tax tl).district.isSome = true) := by
  induction tax with
  | nil => simp [Le.regionLoop]
  | cons p rest ih =>
    obtain ⟨r, ds⟩ := p
    rw [Le.regionLoop]
    split
    · obtain ⟨h1, h2, h3⟩ := le_districtLoop_fields ⟨some r, none, none⟩ ds tl
      constructor
      · intro _
        rw [h1]
        rfl
      · intro hw
        rcases h3 with h3 | h3
        · rw [h3] at hw
          simp at hw
        · exact h3
    · exact ih

/-- C1 counterexample: on the text "Income: TZS 0" the income field is
present and cleans to the number 0, yet the derived ceiling is absent, so
the ceiling is not income times five whenever income is present and
numeric. -/
theorem C1_counterexample :
    ¬ (∀ n : Nat,
        Az.clean_tzs_to_number
            ((Az.analyze_financial_data "Income: TZS 0").monthly_income_tzs) = .ok (some n) →
        (Az.analyze_financial_data "Income: TZS 0").estimated_max_loan_limit =
          some (Az.formatTZS (5 * n))) := by
  intro h
  have h0 := h 0 rfl
  have hn : (Az.analyze_financial_data "Income: TZS 0").estimated_max_loan_limit = none := rfl
  rw [hn] at h0
  exact Option.noConfusion h0

/-- C1 (amended): the derived ceiling of the aggregated record is the
formatted value of five times the cleaned income exactly when the income
field is present and its cleaned numeric value is positive; it is absent
when income is absent, fails numeric cleaning, or cleans to zero; and it
depends on no field other than the extracted income. -/
theorem C1_thm (t t' : String) :
    ((Az.analyze_financial_data t).monthly_income_tzs = none →
      (Az.analyze_financial_data t).estimated_max_loan_limit = none) ∧
    (∀ e, Az.clean_tzs_to_number ((Az.analyze_financial_data t).monthly_income_tzs) = .error e →
      (Az.analyze_financial_data t).estimated_max_loan_limit = none) ∧
    (Az.clean_tzs_to_number ((Az.analyze_financial_data t).monthly_income_tzs) = .ok (some 0) →
      (Az.analyze_financial_data t).estimated_max_loan_limit = none) ∧
    (∀ n, Az.clean_tzs_to_number ((Az.analyze_financial_data t).monthly_income_tzs) =
        .ok (some n) → 0 < n →
      (Az.analyze_financial_data t).estimated_max_loan_limit = some (Az.formatTZS (5 * n))) ∧
    (Az.extract_income t = Az.extract_income t' →
      (Az.analyze_financial_data t).estimated_max_loan_limit =
        (Az.analyze_financial_data t').estimated_max_loan_limit) := by
  refine ⟨?_, ?_, ?_, ?_, ?_⟩
  · intro h
    have h2 : Az.extract_income t = none := h
    show Az.ceilingOf (Az.extract_income t) = none
    rw [h2]
    rfl
  · intro e he
    have he2 : Az.clean_tzs_to_number (Az.extract_income t) = .error e := he
    show Az.ceilingOf (Az.extract_income t) = none
    simp only [Az.ceilingOf]
    rw [he2]
  · intro hz
    have hz2 : Az.clean_tzs_to_number (Az.extract_income t) = .ok (some 0) := hz
    show Az.ceilingOf (Az.extract_income t) = none
    simp only [Az.ceilingOf]
    rw [hz2]
    rfl
  · intro n hn hpos
    have hn2 : Az.clean_tzs_to_number (Az.extract_income t) = .ok (some n) := hn
    show Az.ceilingOf (Az.extract_income t) = some (Az.formatTZS (5 * n))
    simp only [Az.ceilingOf]
    rw [hn2]
    show (if (n == 0) = true then none else some (Az.formatTZS (5 * n))) =
      some (Az.formatTZS (5 * n))
    have hne : (n == 0) = false := by
      simp
      omega
    simp [hne]
  · intro h
    show Az.ceilingOf (Az.extract_income t) = Az.ceilingOf (Az.extract_income t')
    rw [h]

/-- C1 witness: two texts with the same income but different balance fields;
the theorem delivers the positive-income ceiling and the independence of the
ceiling from the balance. -/
theorem C1_witness :
    Az.clean_tzs_to_number
        ((Az.analyze_financial_data "Income: TZS 100\nBank Balance: TZS 5").monthly_income_tzs) =
      .ok (some 100) ∧
    (Az.analyze_financial_data "Income: TZS 100\nBank Balance: TZS 5").estimated_max_loan_limit =
      some (Az.formatTZS (5 * 100)) ∧
    (Az.analyze_financial_data "Income: TZS 100\nBank Balance: TZS 5").estimated_max_loan_limit =
      (Az.analyze_financial_data "Income: TZS 100\nSavings: TZS 999").estimated_max_loan_limit :=
  ⟨rfl,
   (C1_thm "Income: TZS 100\nBank Balance: TZS 5" "Income: TZS 100\nSavings: TZS 999").2.2.2.1
     100 rfl (by decide),
   (C1_thm "Income: TZS 100\nBank Balance: TZS 5" "Income: TZS 100\nSavings: TZS 999").2.2.2.2
     rfl⟩

/-- C2 counterexample: on the text "A123456789012345" the NIDA extractor
returns a value whose digit count after separator removal is fifteen, not
sixteen or seventeen (the accepted candidate is one letter plus fifteen
digits). -/
theorem C2_counterexample :
    ¬ (∀ v : String, Fe.extract_nida_number "A123456789012345" = some v →
        (v.data.filter Char.isDigit).length = 16 ∨
        (v.data.filter Char.isDigit).length = 17) := by
  intro h
  have h2 := h "A123456789012345" rfl
  revert h2
  decide

/-- C2 (amended): a value returned by the NIDA extractor has exactly sixteen
or seventeen characters after separator removal (the character count may
include one leading letter, so the digit count can be fifteen); candidates
of any other cleaned length are rejected. -/
theorem C2_thm (t : String) (v : String) (h : Fe.extract_nida_number t = some v) :
    v.length = 16 ∨ v.length = 17 :=
  nidaLoop_length h

/-- C2 witness: a sixteen-digit input is accepted and the theorem bounds its
length. -/
theorem C2_witness :
    Fe.extract_nida_number "1234567890123456" = some "1234567890123456" ∧
    ("1234567890123456".length = 16 ∨ "1234567890123456".length = 17) :=
  ⟨rfl, C2_thm "1234567890123456" "1234567890123456" rfl⟩

/-- C3 counterexample: on the text "Age: 0" the age extractor returns 0,
which violates the claimed strict lower bound of the open interval. -/
theorem C3_counterexample :
    ¬ (∀ a : Int, Fe.extract_age 2025 "Age: 0" = some a → 0 < a ∧ a < 120) := by
  intro h
  exact absurd (h 0 rfl).1 (by decide)

/-- C3 (amended): every age returned by the extractor, for any current year,
satisfies zero less-or-equal age less than 120; the direct path performs no
positivity check (it can return 0), while the birth-year path enforces the
full open interval. -/
theorem C3_thm (y : Int) (t : String) (a : Int) (h : Fe.extract_age y t = some a) :
    0 ≤ a ∧ a < 120 := by
  rw [Fe.extract_age] at h
  rcases hd : Fe.extract_age_direct t with _ | b
  · rw [hd] at h
    rcases hb : searchCapture Fe.bornPat t.data with _ | g
    · rw [hb] at h
      simp at h
    · rw [hb] at h
      simp only [] at h
      split at h
      · next hcond =>
        injection h with h1
        subst h1
        simp at hcond
        omega
      · exact absurd h (by simp)
  · rw [hd] at h
    simp at h
    subst h
    obtain ⟨h1, h2⟩ := extract_age_direct_bound hd
    exact ⟨h1, by omega⟩

/-- C3 witness: the bound instantiated on the text "Age: 29". -/
theorem C3_witness :
    Fe.extract_age 2025 "Age: 29" = some 29 ∧ (0 ≤ (29 : Int) ∧ (29 : Int) < 120) :=
  ⟨rfl, C3_thm 2025 "Age: 29" 29 rfl⟩

/-- C4: the bank-balance extractor propagates a ValueError on the text
"Balance: ,,," (its capture strips to the empty string and the float
conversion is not guarded), while the income extractor treats the analogous
conversion failure as absence; so not every field extractor recovers from
conversion failure as the spec states. -/
theorem C4_thm :
    Fe.extract_bank_balance "Balance: ,,," = .error .valueError ∧
    Fe.extract_income "Income: ,,," = none :=
  ⟨rfl, rfl⟩

/-- C5: for every taxonomy and text, both location resolvers satisfy the
hierarchy invariant: a present district implies a present region, and a
present ward implies a present district. -/
theorem C5_thm (tax : Taxonomy) (t : String) :
    ((Fe.extract_location tax t).district.isSome = true →
      (Fe.extract_location tax t).region.isSome = true) ∧
    ((Fe.extract_location tax t).ward.isSome = true →
      (Fe.extract_location tax t).district.isSome = true) ∧
    ((Le.extract_location tax t).district.isSome = true →
      (Le.extract_location tax t).region.isSome = true) ∧
    ((Le.extract_location tax t).ward.isSome = true →
      (Le.extract_location tax t).district.isSome = true) :=
  ⟨(regionScan_inv tax (lowerL t.data)).1, (regionScan_inv tax (lowerL t.data)).2,
   (le_regionLoop_inv tax (lowerL t.data)).1, (le_regionLoop_inv tax (lowerL t.data)).2⟩

/-- C5 witness: the invariant instantiated on the scenario text and the
modelled taxonomy, where district and ward are present. -/
theorem C5_witness :
    (Fe.extract_location modelTaxonomy scenarioText).region.isSome = true ∧
    (Fe.extract_location modelTaxonomy scenarioText).district.isSome = true ∧
    (Le.extract_location modelTaxonomy scenarioText).region.isSome = true ∧
    (Le.extract_location modelTaxonomy scenarioText).district.isSome = true :=
  ⟨(C5_thm modelTaxonomy scenarioText).1 (by decide),
   (C5_thm modelTaxonomy scenarioText).2.1 (by decide),
   (C5_thm modelTaxonomy scenarioText).2.2.1 (by decide),
   (C5_thm modelTaxonomy scenarioText).2.2.2 (by decide)⟩

/-- C6: the location resolver equals the first-hit no-backtrack walk: the
first region of the taxonomy (in declared order) whose lowercased name is a
substring of the lowercased text is selected; only its districts are
scanned, and only the matched district's wards; a miss at a level leaves
the lower levels absent with no backtracking. -/
theorem C6_thm (tax : Taxonomy) (t : String) :
    Fe.extract_location tax t =
      match tax.find? (fun rp => Fe.nameInText rp.1 (lowerL t.data)) with
      | none => ⟨none, none, none⟩
      | some (r, ds) =>
        match ds.find? (fun dp => Fe.nameInText dp.1 (lowerL t.data)) with
        | none => ⟨some r, none, none⟩
        | some (d, ws) =>
          match ws.find? (fun w => Fe.nameInText w (lowerL t.data)) with
          | none => ⟨some r, some d, none⟩
          | some w => ⟨some r, some d, some w⟩ := by
  rw [Fe.extract_location, regionScan_eq_find]
  cases htax : tax.find? (fun rp => Fe.nameInText rp.1 (lowerL t.data)) with
  | none => rfl
  | some p =>
    obtain ⟨r, ds⟩ := p
    show Fe.districtScan r ds (lowerL t.data) =
      match ds.find? (fun dp => Fe.nameInText dp.1 (lowerL t.data)) with
      | none => ⟨some r, none, none⟩
      | some (d, ws) =>
        match ws.find? (fun w => Fe.nameInText w (lowerL t.data)) with
        | none => ⟨some r, some d, none⟩
        | some w => ⟨some r, some d, some w⟩
    rw [districtScan_eq_find]
    cases hds : ds.find? (fun dp => Fe.nameInText dp.1 (lowerL t.data)) with
    | none => rfl
    | some q =>
      obtain ⟨d, ws⟩ := q
      show Fe.wardScan r d ws (lowerL t.data) =
        match ws.find? (fun w => Fe.nameInText w (lowerL t.data)) with
        | none => ⟨some r, some d, none⟩
        | some w => ⟨some r, some d, some w⟩
      rw [wardScan_eq_find]

/-- C7 counterexample: on the text "income of ,,, Income: 5" the first
income pattern matches but its capture fails conversion, and the extractor
nevertheless returns 5 from the third pattern, so a match does not stop the
pattern loop. -/
theorem C7_counterexample :
    ¬ ((searchCapture Fe.incomePat1 "income of ,,, Income: 5".data).isSome = true →
        Fe.extract_income "income of ,,, Income: 5" =
          (searchCapture Fe.incomePat1 "income of ,,, Income: 5".data).bind parseNum) := by
  intro h
  have h2 := h rfl
  rw [show Fe.extract_income "income of ,,, Income: 5" = some 5 from rfl] at h2
  rw [show (searchCapture Fe.incomePat1 "income of ,,, Income: 5".data).bind parseNum = none
    from rfl] at h2
  exact Option.noConfusion h2

/-- C7 (amended): for every text, the income and loan-limit extractors
return the value of the first pattern, in declared priority order, whose
search capture also converts successfully; a matched capture that fails
conversion falls through to the later patterns instead of yielding
absence. -/
theorem C7_thm (t : String) :
    Fe.extract_income t =
      [Fe.incomePat1, Fe.incomePat2, Fe.incomePat3].findSome?
        (fun p => (searchCapture p t.data).bind parseNum) ∧
    Fe.extract_loan_limit t =
      [Fe.loanPat1, Fe.loanPat2, Fe.loanPat3].findSome?
        (fun p => (searchCapture p t.data).bind parseNum) :=
  ⟨firstParsed_eq_findSome [Fe.incomePat1, Fe.incomePat2, Fe.incomePat3] t.data,
   firstParsed_eq_findSome [Fe.loanPat1, Fe.loanPat2, Fe.loanPat3] t.data⟩

/-- C8 counterexample: on the scenario text the aggregator's income is not
500000 (the pattern does not tolerate the "TZS" prefix) and its name is not
"Juma Mkono" (the name pattern's whitespace crosses the newline). -/
theorem C8_counterexample :
    Fe.extract_income scenarioText ≠ some 500000 ∧
    Fe.extract_full_name scenarioText ≠ some "Juma Mkono" := by
  constructor
  · intro h
    rw [show Fe.extract_income scenarioText = none from rfl] at h
    exact Option.noConfusion h
  · intro h
    rw [show Fe.extract_full_name scenarioText = some "Juma Mkono\nAge" from rfl] at h
    exact absurd h (by decide)

/-- C8 (amended): on the scenario text the financial_extractor aggregator
produces name "Juma Mkono\nAge", age 29, absent income, the full
three-level location, absent balance, loan limit, NIDA, phones, job and
workplace, and carries no derived ceiling field at all; the derived ceiling
exists only in the separate analyzer module, where the same text yields
income "TZS 500000", ceiling "TZS 2,500,000" and age "29". -/
theorem C8_thm :
    Fe.extract_all_financial_data 2025 modelTaxonomy scenarioText =
      .ok
        { full_name := some "Juma Mkono\nAge"
          phone_numbers := []
          nida_number := none
          age := some 29
          location := ⟨some "Dar es Salaam", some "Kinondoni", some "Mikocheni"⟩
          income_tzs := none
          bank_balance_tzs := none
          loan_limit_tzs := none
          job_title := none
          workplace := none } ∧
    (Az.analyze_financial_data scenarioText).monthly_income_tzs = some "TZS 500000" ∧
    (Az.analyze_financial_data scenarioText).estimated_max_loan_limit = some "TZS 2,500,000" ∧
    (Az.analyze_financial_data scenarioText).age = some "29" :=
  ⟨rfl, rfl, rfl, rfl⟩

/-- C9: the direct-age pattern captures at most two digits: on "Age: 100"
the extractor returns 10 (the first two captured digits); every direct-path
result lies between 0 and 99, so no direct age above 99 is ever returned;
and a successful direct match is never treated as absence, for any current
year. -/
theorem C9_thm :
    Fe.extract_age 2025 "Age: 100" = some 10 ∧
    (∀ (t : String) (a : Int), Fe.extract_age_direct t = some a → 0 ≤ a ∧ a ≤ 99) ∧
    (∀ (y : Int) (t : String) (a : Int), Fe.extract_age_direct t = some a →
      Fe.extract_age y t = some a) := by
  refine ⟨rfl, ?_, ?_⟩
  · intro t a h
    exact extract_age_direct_bound h
  · intro y t a h
    rw [Fe.extract_age, h]

/-- C9 witness: the direct path on "Age: 100" captures 10 and the theorem's
bound and non-absence apply to it. -/
theorem C9_witness :
    Fe.extract_age_direct "Age: 100" = some 10 ∧
    (0 ≤ (10 : Int) ∧ (10 : Int) ≤ 99) ∧
    Fe.extract_age 1999 "Age: 100" = some 10 :=
  ⟨rfl, C9_thm.2.1 "Age: 100" 10 rfl, C9_thm.2.2 1999 "Age: 100" 10 rfl⟩

/-- C10: an extracted income that cleans to exactly zero leaves the derived
ceiling absent even though the income field itself is present; the ceiling
is set only for positive cleaned income. -/
theorem C10_thm (t s : String)
    (h : (Az.analyze_financial_data t).monthly_income_tzs = some s)
    (hz : Az.clean_tzs_to_number (some s) = .ok (some 0)) :
    (Az.analyze_financial_data t).estimated_max_loan_limit = none := by
  have h2 : Az.extract_income t = some s := h
  show Az.ceilingOf (Az.extract_income t) = none
  rw [h2]
  simp only [Az.ceilingOf]
  rw [hz]
  rfl

/-- C10 witness: the zero-income text instantiates the theorem. -/
theorem C10_witness :
    (Az.analyze_financial_data "Income: TZS 0").monthly_income_tzs = some "TZS 0" ∧
    Az.clean_tzs_to_number (some "TZS 0") = .ok (some 0) ∧
    (Az.analyze_financial_data "Income: TZS 0").estimated_max_loan_limit = none :=
  ⟨rfl, rfl, C10_thm "Income: TZS 0" "TZS 0" rfl rfl⟩
